import Mathlib

/-!
Shallow embedding of the order and user domain core of the
`golang-gin-clean-arch` repository, together with proofs about the
spec's claims.

Conventions of the embedding:
* Go `uint` → `Nat`, Go `int` → `Int`, Go `float64` prices → `Rat`
  (the source only ever adds and multiplies prices, and the claims
  compare a stored total against the same recomputation, so exact
  arithmetic is faithful to what is asserted).
* `time.Time` → `Nat`: every mutating method receives the current
  time `now` as an explicit argument, standing for `time.Now()`.
* A Go method `func (o *Order) M(...) error` mutates its receiver and
  returns an error; it is embedded as a function
  `Order → ... → Option OrderErr × Order` returning the error (if any)
  together with the post-state of the receiver.
* Constructors returning `(*T, error)` are embedded as `Except`.
* Repository interfaces are embedded as function parameters: a
  use-case taking a `UserRepository` becomes a function parameterised
  by the behaviour of the repository methods it calls.
-/

namespace CleanArch

/-- `OrderStatus` constants from `order.go`. -/
inductive OrderStatus
  | pending
  | confirmed
  | shipped
  | delivered
  | cancelled
  deriving DecidableEq, Repr

/-- The named sentinel errors declared at the bottom of `order.go`. -/
inductive OrderErr
  | invalidUserID
  | emptyOrder
  | orderNotModifiable
  | orderItemNotFound
  | invalidOrderStatusTransition
  | cannotCancelDeliveredOrder
  | orderNotFound
  deriving DecidableEq, Repr

/-- `OrderItem` struct from `order.go`. -/
structure OrderItem where
  id : Nat
  orderID : Nat
  productID : Nat
  quantity : Int
  price : Rat
  createdAt : Nat
  deriving DecidableEq, Repr

/-- `Order` struct from `order.go`. -/
structure Order where
  id : Nat
  userID : Nat
  status : OrderStatus
  totalAmount : Rat
  items : List OrderItem
  createdAt : Nat
  updatedAt : Nat
  deletedAt : Option Nat
  deriving DecidableEq, Repr

/-- The loop body of `calculateTotal`: `total += item.Price * float64(item.Quantity)`
starting from `total := 0.0`, folded over the items in order. -/
def itemsTotal (items : List OrderItem) : Rat :=
  items.foldl (fun total item => total + item.price * (item.quantity : Rat)) 0

/-- `(o *Order) calculateTotal()` from `order.go`. -/
def Order.calculateTotal (o : Order) : Order :=
  { o with totalAmount := itemsTotal o.items }

/-- `NewOrder(userID, items)` from `order.go`. -/
def NewOrder (userID : Nat) (items : List OrderItem) (now : Nat) :
    Except OrderErr Order :=
  if userID = 0 then
    .error .invalidUserID
  else if items.length = 0 then
    .error .emptyOrder
  else
    .ok (Order.calculateTotal
      { id := 0, userID, status := .pending, totalAmount := 0, items,
        createdAt := now, updatedAt := now, deletedAt := none })

/-- `(o *Order) AddItem(productID, quantity, price)` from `order.go`. -/
def Order.addItem (o : Order) (productID : Nat) (quantity : Int) (price : Rat)
    (now : Nat) : Option OrderErr × Order :=
  if o.status ≠ .pending then
    (some .orderNotModifiable, o)
  else
    let item : OrderItem :=
      { id := 0, orderID := 0, productID, quantity, price, createdAt := now }
    let o₁ := Order.calculateTotal { o with items := o.items ++ [item] }
    (none, { o₁ with updatedAt := now })

/-- The search loop of `RemoveItem`: drop the first item whose `ID` matches,
returning `none` when no item matches. -/
def removeFirst (items : List OrderItem) (itemID : Nat) :
    Option (List OrderItem) :=
  match items with
  | [] => none
  | item :: rest =>
    if item.id = itemID then
      some rest
    else
      (removeFirst rest itemID).map (item :: ·)

/-- `(o *Order) RemoveItem(itemID)` from `order.go`. -/
def Order.removeItem (o : Order) (itemID : Nat) (now : Nat) :
    Option OrderErr × Order :=
  if o.status ≠ .pending then
    (some .orderNotModifiable, o)
  else
    match removeFirst o.items itemID with
    | none => (some .orderItemNotFound, o)
    | some items =>
      let o₁ := Order.calculateTotal { o with items }
      (none, { o₁ with updatedAt := now })

/-- `(o *Order) Confirm()` from `order.go`. -/
def Order.confirm (o : Order) (now : Nat) : Option OrderErr × Order :=
  if o.status ≠ .pending then
    (some .invalidOrderStatusTransition, o)
  else
    (none, { o with status := .confirmed, updatedAt := now })

/-- `(o *Order) Ship()` from `order.go`. -/
def Order.ship (o : Order) (now : Nat) : Option OrderErr × Order :=
  if o.status ≠ .confirmed then
    (some .invalidOrderStatusTransition, o)
  else
    (none, { o with status := .shipped, updatedAt := now })

/-- `(o *Order) Deliver()` from `order.go`. -/
def Order.deliver (o : Order) (now : Nat) : Option OrderErr × Order :=
  if o.status ≠ .shipped then
    (some .invalidOrderStatusTransition, o)
  else
    (none, { o with status := .delivered, updatedAt := now })

/-- `(o *Order) Cancel()` from `order.go`. -/
def Order.cancel (o : Order) (now : Nat) : Option OrderErr × Order :=
  if o.status = .delivered then
    (some .cannotCancelDeliveredOrder, o)
  else
    (none, { o with status := .cancelled, updatedAt := now })

/-- A concrete item (the spec's example scenario uses
`{productID: 7, quantity: 2, price: 10.0}`). -/
def sampleItem : OrderItem :=
  { id := 3, orderID := 0, productID := 7, quantity := 2, price := 10,
    createdAt := 0 }

/-- A concrete order holding `sampleItem`, parameterised by status, used to
instantiate universally quantified theorems at concrete inputs. -/
def sampleOrder (st : OrderStatus) : Order :=
  { id := 1, userID := 42, status := st, totalAmount := 20,
    items := [sampleItem], createdAt := 0, updatedAt := 0, deletedAt := none }

/-- The order `NewOrder(42, [sampleItem])` returns at time 0 (its total is
`10 * 2 = 20`). -/
def pendingBase : Order :=
  { id := 0, userID := 42, status := .pending, totalAmount := 20,
    items := [sampleItem], createdAt := 0, updatedAt := 0, deletedAt := none }

/-- One call against an order: the mutating methods of `order.go`, each
carrying its arguments and the `time.Now()` value observed by the call. -/
inductive OrderOp
  | addItem (productID : Nat) (quantity : Int) (price : Rat) (now : Nat)
  | removeItem (itemID : Nat) (now : Nat)
  | confirm (now : Nat)
  | ship (now : Nat)
  | deliver (now : Nat)
  | cancel (now : Nat)
  deriving DecidableEq, Repr

/-- Post-state of the receiver after one call, whether or not the call
succeeded (Go mutates the receiver in place; a failed call returns the
error having left the receiver as it was). -/
def Order.applyOp (o : Order) : OrderOp → Order
  | .addItem productID quantity price now =>
      (o.addItem productID quantity price now).2
  | .removeItem itemID now => (o.removeItem itemID now).2
  | .confirm now => (o.confirm now).2
  | .ship now => (o.ship now).2
  | .deliver now => (o.deliver now).2
  | .cancel now => (o.cancel now).2

/-- The order after a whole sequence of calls. -/
def Order.applyOps (o : Order) (ops : List OrderOp) : Order :=
  ops.foldl Order.applyOp o

/-- The arguments of an `addItem` call respect the spec's field bounds
(`quantity > 0`, `price ≥ 0`); calls other than `addItem` carry no item
data. -/
def OrderOp.boundedArgs : OrderOp → Prop
  | .addItem _ quantity price _ => 0 < quantity ∧ 0 ≤ price
  | _ => True

/-- The derived-total invariant: the stored `totalAmount` equals the
recomputation over the current items. -/
def totalInv (o : Order) : Prop :=
  o.totalAmount = itemsTotal o.items

/-- Every item of the order satisfies the spec's field bounds
(`quantity > 0`, `price ≥ 0`). -/
def itemsBounded (o : Order) : Prop :=
  ∀ item ∈ o.items, 0 < item.quantity ∧ 0 ≤ item.price

end CleanArch

namespace CleanArch

/-- C1: `Confirm` succeeds (no error, status set to confirmed, `updatedAt`
bumped) exactly when the status is pending, and otherwise returns
`ErrInvalidOrderStatusTransition` leaving the order unchanged; same for
`Ship` from confirmed and `Deliver` from shipped. -/
theorem confirm_ship_deliver_transitions (o : Order) (now : Nat) :
    (o.confirm now = (none, { o with status := .confirmed, updatedAt := now })
        ↔ o.status = .pending) ∧
    (o.status ≠ .pending →
        o.confirm now = (some .invalidOrderStatusTransition, o)) ∧
    (o.ship now = (none, { o with status := .shipped, updatedAt := now })
        ↔ o.status = .confirmed) ∧
    (o.status ≠ .confirmed →
        o.ship now = (some .invalidOrderStatusTransition, o)) ∧
    (o.deliver now = (none, { o with status := .delivered, updatedAt := now })
        ↔ o.status = .shipped) ∧
    (o.status ≠ .shipped →
        o.deliver now = (some .invalidOrderStatusTransition, o)) := by
  unfold Order.confirm Order.ship Order.deliver
  refine ⟨?_, ?_, ?_, ?_, ?_, ?_⟩ <;>
    cases h : o.status <;>
      simp_all [Prod.ext_iff]

/-- Witness for C1 at a concrete order: `Ship` on a pending order fails with
`ErrInvalidOrderStatusTransition` and leaves the order unchanged. -/
theorem confirm_ship_deliver_transitions_witness :
    (sampleOrder .pending).ship 5 =
      (some .invalidOrderStatusTransition, sampleOrder .pending) :=
  (confirm_ship_deliver_transitions (sampleOrder .pending) 5).2.2.2.1 (by decide)

/-- Counterexample for C3 as stated: on an order whose status is cancelled,
`Cancel()` returns no error (Go returns `nil`), contradicting "each of
Confirm(), Ship(), Deliver(), and Cancel() returns an error". -/
theorem cancelled_cancel_returns_no_error :
    (sampleOrder .cancelled).status = .cancelled ∧
    ((sampleOrder .cancelled).cancel 5).1 = none := by
  exact ⟨rfl, rfl⟩

/-- C3 (amended): cancelled is terminal for the status, not for the calls:
`Confirm`, `Ship` and `Deliver` on a cancelled order fail with
`ErrInvalidOrderStatusTransition` leaving the order unchanged, while
`Cancel` returns no error and merely re-sets the status to cancelled, so
the status remains cancelled after every one of the four calls. -/
theorem cancelled_is_terminal (o : Order) (now : Nat)
    (h : o.status = .cancelled) :
    o.confirm now = (some .invalidOrderStatusTransition, o) ∧
    o.ship now = (some .invalidOrderStatusTransition, o) ∧
    o.deliver now = (some .invalidOrderStatusTransition, o) ∧
    (o.cancel now).1 = none ∧
    (o.cancel now).2.status = .cancelled := by
  unfold Order.confirm Order.ship Order.deliver Order.cancel
  simp [h]

/-- Witness for C3 (amended) at a concrete cancelled order. -/
theorem cancelled_is_terminal_witness :
    ((sampleOrder .cancelled).confirm 5 =
        (some .invalidOrderStatusTransition, sampleOrder .cancelled)) ∧
    ((sampleOrder .cancelled).cancel 5).2.status = .cancelled :=
  ⟨(cancelled_is_terminal (sampleOrder .cancelled) 5 rfl).1,
   (cancelled_is_terminal (sampleOrder .cancelled) 5 rfl).2.2.2.2⟩

/-- C5: `Cancel` returns `ErrCannotCancelDeliveredOrder` exactly when the
status is delivered (leaving the order, hence its delivered status,
unchanged), and succeeds from pending, confirmed and shipped, setting the
status to cancelled. -/
theorem cancel_spec (o : Order) (now : Nat) :
    ((o.cancel now).1 = some .cannotCancelDeliveredOrder ↔
      o.status = .delivered) ∧
    (o.status = .delivered → o.cancel now = (some .cannotCancelDeliveredOrder, o)) ∧
    (o.status = .pending ∨ o.status = .confirmed ∨ o.status = .shipped →
      o.cancel now = (none, { o with status := .cancelled, updatedAt := now })) := by
  unfold Order.cancel
  refine ⟨?_, ?_, ?_⟩ <;> cases h : o.status <;> simp_all

/-- Witness for C5 at concrete orders: cancelling a shipped order succeeds
and cancelling a delivered order fails. -/
theorem cancel_spec_witness :
    (sampleOrder .shipped).cancel 9 =
      (none, { sampleOrder .shipped with status := .cancelled, updatedAt := 9 }) ∧
    (sampleOrder .delivered).cancel 9 =
      (some .cannotCancelDeliveredOrder, sampleOrder .delivered) :=
  ⟨(cancel_spec (sampleOrder .shipped) 9).2.2 (by decide),
   (cancel_spec (sampleOrder .delivered) 9).2.1 (by decide)⟩

/-- The named sentinel errors of the user domain, plus `other` standing for
any non-domain error a repository implementation may return. -/
inductive UserErr
  | invalidEmail
  | invalidName
  | invalidPassword
  | userNotFound
  | emailExists
  | other (msg : String)
  deriving DecidableEq, Repr

/-- `User` struct from the user entities file. -/
structure User where
  id : Nat
  email : String
  name : String
  password : String
  createdAt : Nat
  updatedAt : Nat
  deletedAt : Option Nat
  deriving DecidableEq, Repr

/-- `NewUser(email, name, password)` from the user entities file. -/
def NewUser (email name password : String) (now : Nat) :
    Except UserErr User :=
  if email = "" then
    .error .invalidEmail
  else if name = "" then
    .error .invalidName
  else if password = "" then
    .error .invalidPassword
  else
    .ok { id := 0, email, name, password, createdAt := now,
          updatedAt := now, deletedAt := none }

/-- `(uc *userUseCase) CreateUser(email, name, password)` from
`user_usecase_impl.go`; the repository's `GetByEmail` and `Create`
behaviours are passed as functions. -/
def createUser (getByEmail : String → Except UserErr User)
    (create : User → Option UserErr)
    (email name password : String) (now : Nat) : Except UserErr User :=
  if email = "" ∨ name = "" ∨ password = "" then
    .error .invalidEmail
  else
    match getByEmail email with
    | .ok _ => .error .emailExists
    | .error e =>
      if e ≠ .userNotFound then
        .error e
      else
        match NewUser email name password now with
        | .error e2 => .error e2
        | .ok user =>
          match create user with
          | some e2 => .error e2
          | none => .ok user

/-- `CreateUserCommand` from `create_user_command.go`. -/
structure CreateUserCommand where
  email : String
  name : String
  password : String
  deriving DecidableEq, Repr

/-- `validateCommand` from `create_user_command.go`. -/
def validateCommand (cmd : CreateUserCommand) : Option UserErr :=
  if cmd.password.length < 8 then some .invalidPassword else none

/-- `(h *CreateUserCommandHandler) Handle(cmd)` from
`create_user_command.go`. -/
def handleCreateUser (getByEmail : String → Except UserErr User)
    (create : User → Option UserErr) (cmd : CreateUserCommand) (now : Nat) :
    Except UserErr User :=
  match validateCommand cmd with
  | some e => .error e
  | none =>
    match getByEmail cmd.email with
    | .ok _ => .error .emailExists
    | .error e =>
      if e ≠ .userNotFound then
        .error e
      else
        match NewUser cmd.email cmd.name cmd.password now with
        | .error e2 => .error e2
        | .ok user =>
          match create user with
          | some e2 => .error e2
          | none => .ok user

/-- `GetUserQuery` from `get_user_query.go`. -/
structure GetUserQuery where
  userID : Nat
  deriving DecidableEq, Repr

/-- `(h *GetUserQueryHandler) Handle(query)` from `get_user_query.go`;
alongside the result it returns the list of IDs fetched from the
repository, recording whether the repository was consulted at all. -/
def handleGetUser (getByID : Nat → Except UserErr User)
    (query : GetUserQuery) : Except UserErr User × List Nat :=
  if query.userID = 0 then
    (.error .invalidEmail, [])
  else
    match getByID query.userID with
    | .error e => (.error e, [query.userID])
    | .ok user => (.ok user, [query.userID])

/-- A concrete user for instantiating repository behaviours. -/
def sampleUser : User :=
  { id := 1, email := "a@x.com", name := "a", password := "password1",
    createdAt := 0, updatedAt := 0, deletedAt := none }

/-- A repository whose `GetByEmail` finds `sampleUser` for every email. -/
def alwaysFound (_ : String) : Except UserErr User := .ok sampleUser

/-- A repository whose `GetByEmail` reports not-found for every email. -/
def neverFound (_ : String) : Except UserErr User := .error .userNotFound

/-- A `Create` behaviour that always succeeds. -/
def noopCreate (_ : User) : Option UserErr := none

/-- The fold in `calculateTotal` computes the sum of `price * quantity`
over the items, accumulator generalised. -/
theorem itemsTotal_foldl_eq (items : List OrderItem) (a : Rat) :
    items.foldl (fun total item => total + item.price * (item.quantity : Rat)) a =
      a + (items.map fun item => item.price * (item.quantity : Rat)).sum := by
  induction items generalizing a with
  | nil => simp
  | cons item rest ih => simp [ih, add_assoc]

/-- `itemsTotal` is the spec's Σ item.price × item.quantity. -/
theorem itemsTotal_eq_sum (items : List OrderItem) :
    itemsTotal items =
      (items.map fun item => item.price * (item.quantity : Rat)).sum := by
  simpa using itemsTotal_foldl_eq items 0

/-- A successful `NewOrder` yields exactly the pending order over the given
items with the recomputed total. -/
theorem newOrder_ok_iff (userID : Nat) (items : List OrderItem) (now : Nat)
    (o : Order) :
    NewOrder userID items now = .ok o ↔
      userID ≠ 0 ∧ items ≠ [] ∧
      o = { id := 0, userID, status := .pending,
            totalAmount := itemsTotal items, items,
            createdAt := now, updatedAt := now, deletedAt := none } := by
  unfold NewOrder Order.calculateTotal
  split
  · simp_all
  · split
    · simp_all
    · constructor
      · intro h
        refine ⟨by assumption, by simp_all [List.length_eq_zero], ?_⟩
        cases h
        rfl
      · rintro ⟨-, -, rfl⟩
        rfl

/-- C4: `NewOrder` returns `ErrInvalidUserID` whenever `userID = 0` (for any
items), `ErrEmptyOrder` whenever `userID ≠ 0` and the items are empty, and
otherwise succeeds with a pending order holding the given user, the given
items and `totalAmount = Σ price * quantity`. -/
theorem newOrder_spec (userID : Nat) (items : List OrderItem) (now : Nat) :
    (userID = 0 → NewOrder userID items now = .error .invalidUserID) ∧
    (userID ≠ 0 → items = [] → NewOrder userID items now = .error .emptyOrder) ∧
    (userID ≠ 0 → items ≠ [] →
      NewOrder userID items now = .ok
        { id := 0, userID, status := .pending,
          totalAmount :=
            (items.map fun item => item.price * (item.quantity : Rat)).sum,
          items, createdAt := now, updatedAt := now, deletedAt := none }) := by
  refine ⟨?_, ?_, ?_⟩
  · intro h
    simp [NewOrder, h]
  · intro h h2
    simp [NewOrder, h, h2]
  · intro h h2
    rw [newOrder_ok_iff]
    exact ⟨h, h2, by rw [itemsTotal_eq_sum]⟩

/-- Witness for C4: the three cases at concrete inputs. -/
theorem newOrder_spec_witness :
    NewOrder 0 [sampleItem] 0 = .error .invalidUserID ∧
    NewOrder 42 [] 0 = .error .emptyOrder ∧
    NewOrder 42 [sampleItem] 0 = .ok
      { id := 0, userID := 42, status := .pending,
        totalAmount :=
          ([sampleItem].map fun item => item.price * (item.quantity : Rat)).sum,
        items := [sampleItem], createdAt := 0, updatedAt := 0,
        deletedAt := none } :=
  ⟨(newOrder_spec 0 [sampleItem] 0).1 rfl,
   (newOrder_spec 42 [] 0).2.1 (by decide) rfl,
   (newOrder_spec 42 [sampleItem] 0).2.2 (by decide) (by decide)⟩

/-- `calculateTotal` establishes the derived-total invariant. -/
theorem calculateTotal_totalInv (o : Order) :
    totalInv (Order.calculateTotal o) := rfl

/-- Every single call preserves the derived-total invariant: the
status-transition calls touch neither the items nor the total, the failed
item mutations leave the order unchanged, and the successful ones end in
`calculateTotal`. -/
theorem applyOp_totalInv (o : Order) (op : OrderOp) (h : totalInv o) :
    totalInv (o.applyOp op) := by
  cases op with
  | addItem productID quantity price now =>
    simp only [Order.applyOp, Order.addItem]
    split
    · exact h
    · rfl
  | removeItem itemID now =>
    simp only [Order.applyOp, Order.removeItem]
    split
    · exact h
    · split
      · exact h
      · rfl
  | confirm now =>
    simp only [Order.applyOp, Order.confirm]
    split
    · exact h
    · exact h
  | ship now =>
    simp only [Order.applyOp, Order.ship]
    split
    · exact h
    · exact h
  | deliver now =>
    simp only [Order.applyOp, Order.deliver]
    split
    · exact h
    · exact h
  | cancel now =>
    simp only [Order.applyOp, Order.cancel]
    split
    · exact h
    · exact h

/-- The derived-total invariant is preserved by any call sequence. -/
theorem applyOps_totalInv (o : Order) (ops : List OrderOp) (h : totalInv o) :
    totalInv (o.applyOps ops) := by
  induction ops generalizing o with
  | nil => exact h
  | cons op rest ih => exact ih _ (applyOp_totalInv o op h)

/-- C2: for every order obtained from a successful `NewOrder` and evolved
through any sequence of (successful or failed) `AddItem`, `RemoveItem`,
`Confirm`, `Ship`, `Deliver` and `Cancel` calls, `totalAmount` equals
Σ item.price × item.quantity over the current items. -/
theorem totalAmount_invariant (userID : Nat) (items : List OrderItem)
    (now : Nat) (o₀ : Order) (ops : List OrderOp)
    (h : NewOrder userID items now = .ok o₀) :
    (o₀.applyOps ops).totalAmount =
      ((o₀.applyOps ops).items.map
        fun item => item.price * (item.quantity : Rat)).sum := by
  rw [← itemsTotal_eq_sum]
  refine applyOps_totalInv o₀ ops ?_
  rcases (newOrder_ok_iff userID items now o₀).1 h with ⟨-, -, rfl⟩
  rfl

/-- Witness for C2: the invariant evaluated after a concrete call
sequence on a concretely constructed order. -/
theorem totalAmount_invariant_witness :
    (pendingBase.applyOps
        [.addItem 9 1 5 1, .confirm 2, .ship 3]).totalAmount =
      ((pendingBase.applyOps
          [.addItem 9 1 5 1, .confirm 2, .ship 3]).items.map
        fun item => item.price * (item.quantity : Rat)).sum :=
  totalAmount_invariant 42 [sampleItem] 0 pendingBase
    [.addItem 9 1 5 1, .confirm 2, .ship 3]
    (by
      rw [newOrder_ok_iff]
      refine ⟨by decide, by decide, ?_⟩
      simp [pendingBase, sampleItem, itemsTotal]
      norm_num)

/-- `removeFirst` finds no item exactly when no item carries the ID. -/
theorem removeFirst_eq_none_iff (items : List OrderItem) (itemID : Nat) :
    removeFirst items itemID = none ↔ ∀ item ∈ items, item.id ≠ itemID := by
  induction items with
  | nil => simp [removeFirst]
  | cons item rest ih =>
    by_cases h : item.id = itemID
    · simp [removeFirst, h]
    · simp [removeFirst, h, Option.map_eq_none', ih]

/-- `itemsTotal` over an appended item adds that item's contribution. -/
theorem itemsTotal_append (items : List OrderItem) (item : OrderItem) :
    itemsTotal (items ++ [item]) =
      itemsTotal items + item.price * (item.quantity : Rat) := by
  simp [itemsTotal_eq_sum]

/-- C6: on a non-pending order, `AddItem` and `RemoveItem` fail with
`ErrOrderNotModifiable` leaving the order unchanged; on a pending order,
`RemoveItem` fails with `ErrOrderItemNotFound` leaving the order unchanged
when no item has the given ID, and on success both operations recompute
`totalAmount` over the new items and set `updatedAt` to the call time. -/
theorem addItem_removeItem_spec (o : Order) (productID : Nat) (quantity : Int)
    (price : Rat) (itemID : Nat) (now : Nat) :
    (o.status ≠ .pending →
      o.addItem productID quantity price now = (some .orderNotModifiable, o) ∧
      o.removeItem itemID now = (some .orderNotModifiable, o)) ∧
    (o.status = .pending →
      ((∀ item ∈ o.items, item.id ≠ itemID) →
        o.removeItem itemID now = (some .orderItemNotFound, o)) ∧
      ((o.addItem productID quantity price now).1 = none ∧
       (o.addItem productID quantity price now).2.totalAmount =
         ((o.addItem productID quantity price now).2.items.map
           fun item => item.price * (item.quantity : Rat)).sum ∧
       (o.addItem productID quantity price now).2.updatedAt = now) ∧
      ((o.removeItem itemID now).1 = none →
        (o.removeItem itemID now).2.totalAmount =
          ((o.removeItem itemID now).2.items.map
            fun item => item.price * (item.quantity : Rat)).sum ∧
        (o.removeItem itemID now).2.updatedAt = now)) := by
  constructor
  · intro h
    constructor
    · simp [Order.addItem, h]
    · simp [Order.removeItem, h]
  · intro h
    refine ⟨?_, ?_, ?_⟩
    · intro hnone
      rw [← removeFirst_eq_none_iff] at hnone
      simp [Order.removeItem, h, hnone]
    · refine ⟨?_, ?_, ?_⟩ <;>
        simp [Order.addItem, Order.calculateTotal, h, ← itemsTotal_eq_sum,
          itemsTotal_append]
    · intro hok
      unfold Order.removeItem at hok ⊢
      simp only [h] at hok ⊢
      simp only [ne_eq, not_true_eq_false, if_false, ite_false] at hok ⊢
      cases hr : removeFirst o.items itemID with
      | none => simp [hr] at hok
      | some items =>
        simp [hr, Order.calculateTotal, ← itemsTotal_eq_sum]

/-- Witness for C6 at concrete orders: `AddItem` on a confirmed order fails
with `ErrOrderNotModifiable`, and removing an absent ID from a pending
order fails with `ErrOrderItemNotFound`. -/
theorem addItem_removeItem_spec_witness :
    (sampleOrder .confirmed).addItem 9 1 5 7 =
      (some .orderNotModifiable, sampleOrder .confirmed) ∧
    (sampleOrder .pending).removeItem 99 7 =
      (some .orderItemNotFound, sampleOrder .pending) :=
  ⟨((addItem_removeItem_spec (sampleOrder .confirmed) 9 1 5 99 7).1
      (by decide)).1,
   ((addItem_removeItem_spec (sampleOrder .pending) 9 1 5 99 7).2
      (by decide)).1 (by decide)⟩

/-- Whatever `removeFirst` keeps was already among the items. -/
theorem mem_of_mem_removeFirst (item : OrderItem) (itemID : Nat)
    (items rest : List OrderItem) (h : removeFirst items itemID = some rest)
    (hm : item ∈ rest) : item ∈ items := by
  induction items generalizing rest with
  | nil => simp [removeFirst] at h
  | cons hd tl ih =>
    by_cases hid : hd.id = itemID
    · simp only [removeFirst, hid, if_true, Option.some.injEq] at h
      subst h
      exact List.mem_cons_of_mem _ hm
    · simp only [removeFirst, hid, if_false, Option.map_eq_some'] at h
      obtain ⟨rest2, hr2, rfl⟩ := h
      rcases List.mem_cons.1 hm with rfl | hm2
      · exact List.mem_cons_self _ _
      · exact List.mem_cons_of_mem _ (ih rest2 hr2 hm2)

/-- A single call keeps all items within the field bounds, provided an
`addItem` call only ever passes a positive quantity and a non-negative
price. -/
theorem applyOp_itemsBounded (o : Order) (op : OrderOp)
    (hb : op.boundedArgs) (h : itemsBounded o) :
    itemsBounded (o.applyOp op) := by
  cases op with
  | addItem productID quantity price now =>
    simp only [Order.applyOp, Order.addItem]
    split
    · exact h
    · intro item hm
      simp only [Order.calculateTotal, List.mem_append,
        List.mem_singleton] at hm
      rcases hm with hm1 | rfl
      · exact h item hm1
      · exact hb
  | removeItem itemID now =>
    simp only [Order.applyOp, Order.removeItem]
    split
    · exact h
    · split
      · exact h
      · intro item hm
        simp only [Order.calculateTotal] at hm
        refine h item (mem_of_mem_removeFirst item itemID o.items _ ?_ hm)
        assumption
  | confirm now =>
    simp only [Order.applyOp, Order.confirm]
    split
    · exact h
    · exact h
  | ship now =>
    simp only [Order.applyOp, Order.ship]
    split
    · exact h
    · exact h
  | deliver now =>
    simp only [Order.applyOp, Order.deliver]
    split
    · exact h
    · exact h
  | cancel now =>
    simp only [Order.applyOp, Order.cancel]
    split
    · exact h
    · exact h

/-- Bounded-argument call sequences keep all items within the bounds. -/
theorem applyOps_itemsBounded (o : Order) (ops : List OrderOp)
    (hops : ∀ op ∈ ops, op.boundedArgs) (h : itemsBounded o) :
    itemsBounded (o.applyOps ops) := by
  induction ops generalizing o with
  | nil => exact h
  | cons op rest ih =>
    exact ih _ (fun op2 hm => hops op2 (List.mem_cons_of_mem _ hm))
      (applyOp_itemsBounded o op (hops op (List.mem_cons_self _ _)) h)

/-- Counterexample for C7 as stated: the code never validates item fields.
From `NewOrder(42, [sampleItem])`, the call `AddItem(9, -1, -2.0)` succeeds
(error `nil`), after which the order holds an item with negative quantity
and negative price. -/
theorem item_bounds_counterexample :
    NewOrder 42 [sampleItem] 0 = .ok pendingBase ∧
    (pendingBase.addItem 9 (-1) (-2) 1).1 = none ∧
    ¬ (∀ item ∈ (pendingBase.addItem 9 (-1) (-2) 1).2.items,
        0 < item.quantity ∧ 0 ≤ item.price) := by
  refine ⟨?_, rfl, ?_⟩
  · rw [newOrder_ok_iff]
    refine ⟨by decide, by decide, ?_⟩
    simp [pendingBase, sampleItem, itemsTotal]
    norm_num
  · intro hall
    have h2 := hall
      { id := 0, orderID := 0, productID := 9, quantity := -1,
        price := -2, createdAt := 1 }
      (by simp [Order.addItem, Order.calculateTotal, pendingBase])
    exact absurd h2.1 (by decide)

/-- C7 (amended): item bounds are a caller obligation, not enforced by the
code; they are preserved rather than established. For every order built by
a successful `NewOrder` from items within the bounds and evolved by calls
whose `addItem` arguments have `quantity > 0` and `price ≥ 0`, every item
of the resulting order has `quantity > 0` and `price ≥ 0`. -/
theorem item_bounds_conditional (userID : Nat) (items : List OrderItem)
    (now : Nat) (o₀ : Order) (ops : List OrderOp)
    (h : NewOrder userID items now = .ok o₀)
    (hitems : ∀ item ∈ items, 0 < item.quantity ∧ 0 ≤ item.price)
    (hops : ∀ op ∈ ops, op.boundedArgs) :
    ∀ item ∈ (o₀.applyOps ops).items, 0 < item.quantity ∧ 0 ≤ item.price := by
  refine applyOps_itemsBounded o₀ ops hops ?_
  rcases (newOrder_ok_iff userID items now o₀).1 h with ⟨-, -, rfl⟩
  exact hitems

/-- Witness for C7 (amended) at a concrete order and call sequence. -/
theorem item_bounds_conditional_witness :
    0 < sampleItem.quantity ∧ 0 ≤ sampleItem.price :=
  item_bounds_conditional 42 [sampleItem] 0 pendingBase []
    (by
      rw [newOrder_ok_iff]
      refine ⟨by decide, by decide, ?_⟩
      simp [pendingBase, sampleItem, itemsTotal]
      norm_num)
    (by
      intro item hm
      simp only [List.mem_singleton] at hm
      subst hm
      exact ⟨by norm_num [sampleItem], by norm_num [sampleItem]⟩)
    (by intro op hm; exact absurd hm (List.not_mem_nil _))
    sampleItem (by simp [Order.applyOps, pendingBase])

/-- Counterexample for C8 as stated: "for every email" includes inputs the
use case rejects before the lookup. With a repository whose `GetByEmail`
succeeds on the empty email, `CreateUser("", "n", "p")` returns
`ErrInvalidEmail`, not `ErrEmailExists`. -/
theorem email_uniqueness_counterexample :
    createUser alwaysFound noopCreate "" "n" "p" 0 = .error .invalidEmail ∧
    UserErr.invalidEmail ≠ UserErr.emailExists := by
  exact ⟨rfl, by decide⟩

/-- C8 (amended): for inputs passing the handler's own pre-validation
(non-empty email, name and password for `CreateUser`; password length ≥ 8
for the command handler), the lookup-before-create policy holds: a
successful `GetByEmail` makes creation fail with `ErrEmailExists`, an
`ErrUserNotFound` lookup proceeds to the `NewUser` factory and the
repository `Create`, and any other lookup error is returned unchanged. -/
theorem email_uniqueness_lookup
    (getByEmail : String → Except UserErr User)
    (create : User → Option UserErr)
    (email name password : String) (now : Nat)
    (he : email ≠ "") (hn : name ≠ "") (hp : password ≠ "")
    (hlen : 8 ≤ password.length) :
    ((∀ u, getByEmail email = .ok u →
        createUser getByEmail create email name password now =
          .error .emailExists) ∧
     (getByEmail email = .error .userNotFound →
        createUser getByEmail create email name password now =
          (match NewUser email name password now with
           | .error e => .error e
           | .ok user =>
             match create user with
             | some e => .error e
             | none => .ok user)) ∧
     (∀ e, e ≠ .userNotFound → getByEmail email = .error e →
        createUser getByEmail create email name password now = .error e)) ∧
    ((∀ u, getByEmail email = .ok u →
        handleCreateUser getByEmail create ⟨email, name, password⟩ now =
          .error .emailExists) ∧
     (getByEmail email = .error .userNotFound →
        handleCreateUser getByEmail create ⟨email, name, password⟩ now =
          (match NewUser email name password now with
           | .error e => .error e
           | .ok user =>
             match create user with
             | some e => .error e
             | none => .ok user)) ∧
     (∀ e, e ≠ .userNotFound → getByEmail email = .error e →
        handleCreateUser getByEmail create ⟨email, name, password⟩ now =
          .error e)) := by
  have hv : ¬ password.length < 8 := Nat.not_lt.mpr hlen
  refine ⟨⟨?_, ?_, ?_⟩, ⟨?_, ?_, ?_⟩⟩
  · intro u hu
    simp [createUser, he, hn, hp, hu]
  · intro hu
    simp [createUser, he, hn, hp, hu]
  · intro e hne hu
    simp [createUser, he, hn, hp, hu, hne]
  · intro u hu
    simp [handleCreateUser, validateCommand, hv, hu]
  · intro hu
    simp [handleCreateUser, validateCommand, hv, hu]
  · intro e hne hu
    simp [handleCreateUser, validateCommand, hv, hu, hne]

/-- Witness for C8 (amended) at concrete repositories: an always-finding
lookup yields `ErrEmailExists` from `CreateUser`, and a not-found lookup
makes the command handler proceed to the factory and `Create`. -/
theorem email_uniqueness_lookup_witness :
    createUser alwaysFound noopCreate "b@x.com" "b" "password1" 0 =
      .error .emailExists ∧
    handleCreateUser neverFound noopCreate ⟨"b@x.com", "b", "password1"⟩ 0 =
      (match NewUser "b@x.com" "b" "password1" 0 with
       | .error e => .error e
       | .ok user =>
         match noopCreate user with
         | some e => .error e
         | none => .ok user) :=
  ⟨(email_uniqueness_lookup alwaysFound noopCreate "b@x.com" "b" "password1"
      0 (by decide) (by decide) (by decide) (by decide)).1.1 sampleUser rfl,
   (email_uniqueness_lookup neverFound noopCreate "b@x.com" "b" "password1"
      0 (by decide) (by decide) (by decide) (by decide)).2.2.1 rfl⟩

/-- Counterexample for C9 as stated: with a not-found repository and a
non-empty email, `CreateUser("e@x.com", "", "p")` returns
`ErrInvalidEmail`, not the entity's `ErrInvalidName`: the use case's
blanket pre-validation fires before `NewUser` is ever reached. -/
theorem specific_error_counterexample :
    createUser neverFound noopCreate "e@x.com" "" "p" 0 =
      .error .invalidEmail ∧
    UserErr.invalidEmail ≠ UserErr.invalidName := by
  exact ⟨rfl, by decide⟩

/-- C9 (amended): `CreateUser` masks the entity's specific errors: it
returns `ErrInvalidEmail` whenever any of email, name or password is
empty (regardless of the repository), while `NewUser` itself returns
`ErrInvalidName` for an empty name and `ErrInvalidPassword` for an empty
password. -/
theorem usecase_blanket_validation
    (getByEmail : String → Except UserErr User)
    (create : User → Option UserErr)
    (email name password : String) (now : Nat) :
    (email = "" ∨ name = "" ∨ password = "" →
      createUser getByEmail create email name password now =
        .error .invalidEmail) ∧
    (email ≠ "" → NewUser email "" password now = .error .invalidName) ∧
    (email ≠ "" → name ≠ "" →
      NewUser email name "" now = .error .invalidPassword) := by
  refine ⟨?_, ?_, ?_⟩
  · intro h
    simp [createUser, h]
  · intro he
    simp [NewUser, he]
  · intro he hn
    simp [NewUser, he, hn]

/-- Witness for C9 (amended) at concrete inputs. -/
theorem usecase_blanket_validation_witness :
    createUser neverFound noopCreate "c@x.com" "" "p" 0 =
      .error .invalidEmail ∧
    NewUser "c@x.com" "" "p" 0 = .error .invalidName :=
  ⟨(usecase_blanket_validation neverFound noopCreate "c@x.com" "" "p" 0).1
      (Or.inr (Or.inl rfl)),
   (usecase_blanket_validation neverFound noopCreate "c@x.com" "" "p" 0).2.1
      (by decide)⟩

/-- C10: for a `GetUserQuery` with `UserID = 0`, the query handler returns
`ErrInvalidEmail` — the very sentinel the user entity returns for an empty
email, reused here for an invalid ID — and its fetched-ID log is empty for
every repository behaviour, so the repository is never consulted. -/
theorem getUser_zero_id (getByID : Nat → Except UserErr User) :
    handleGetUser getByID ⟨0⟩ = (.error .invalidEmail, []) ∧
    NewUser "" "n" "p" 0 = .error .invalidEmail := by
  exact ⟨rfl, rfl⟩

end CleanArch
